import Mathlib

/-!
Verification of the command-dispatch and context-resolution layer of the
`drive` synchronization tool (`cmd/drive/main.go`).

The embedding translates the decision logic of `main.go` into pure Lean
functions.  External collaborators (the `config` and `drive` packages,
`filepath.Abs`, `filepath.Rel`, `os.Getwd`) appear as abstract fields of
an `Env` record, since the spec treats them as interface boundaries.
Fallible Go calls (returning `error`) become `Except String` values, and
`exitWithError`-style process termination becomes short-circuiting of the
`Except` computation together with an explicit outcome function.
-/

/-- Mirrors the part of `config.Context` that `main.go` reads: the
absolute path of the sync root (`context.AbsPath`). -/
structure Context where
  absPath : String
deriving Repr, DecidableEq

/-- Modelled from the spec: a `MountPoint` pairs a local filesystem path
with a remote logical path; `main.go` only forwards such values from
`config.MountPoints` into the options bundle, never inspecting them. -/
structure MountPoint where
  localPath : String
  remotePath : String
deriving Repr, DecidableEq

/-- The fields of `drive.Options` that the push handler populates
(`main.go:115-122`). -/
structure Options where
  path : String
  hidden : Bool
  isNoPrompt : Bool
  isRecursive : Bool
  mounts : List MountPoint
  sources : List String
deriving Repr, DecidableEq

/-- The external collaborators of `main.go`, abstracted at their
interface boundary: the current working directory (`os.Getwd`),
`config.Discover`, `filepath.Rel`, `filepath.Abs`, and
`config.MountPoints`. -/
structure Env where
  cwd : String
  discover : String → Except String Context
  relOf : String → String → Except String String
  absOf : String → Except String String
  mountPoints : String → String → List String → Bool → List MountPoint × List String

/-- `getContextPath` (`main.go:170-178`): start from the empty string,
take `args[0]` when `args` is non-empty, and fall back to the current
working directory whenever the chosen path is still the empty string. -/
def getContextPath (cwd : String) (args : List String) : String :=
  let contextPath : String := ""
  let contextPath := if 0 < args.length then args.getD 0 "" else contextPath
  if contextPath = "" then cwd else contextPath

/-- `discoverContext` (`main.go:158-168`): discover the configuration
context at `getContextPath args`; on success, compute the path of
`args[0]` relative to the discovered root when `args` is non-empty,
else return the empty relative path.  Any error terminates the run. -/
def discoverContext (env : Env) (args : List String) :
    Except String (Context × String) :=
  match env.discover (getContextPath env.cwd args) with
  | .error e => .error e
  | .ok ctx =>
    match args with
    | [] => .ok (ctx, "")
    | a :: _ =>
      match env.relOf ctx.absPath a with
      | .error e => .error e
      | .ok rel => .ok (ctx, rel)

/-- The argument split at the top of `pushCmd.Run` (`main.go:94-106`).
Returns `(contextArgs, rest, sources)`: when the mounted-push flag is
set and at least one argument is present, `rest` is every argument but
the last, `contextArgs` is the final one-element slice, and `sources`
stays empty; otherwise all arguments are context arguments, `rest` is
empty, and each argument `a` yields the source `"/" ++ a`. -/
def pushSplit (mountedPush : Bool) (args : List String) :
    List String × List String × List String :=
  let argc := args.length
  if mountedPush = true ∧ 1 ≤ argc then
    (args.drop (argc - 1), args.take (argc - 1), [])
  else
    (args, [], args.map fun path => "/" ++ path)

/-- One recorded invocation of `config.MountPoints`, with the arguments
it was called with (`main.go:112`). -/
structure MountCall where
  path : String
  absPath : String
  rest : List String
  hiddenFlag : Bool
deriving Repr, DecidableEq

/-- The pre-engine part of `pushCmd.Run` (`main.go:94-113`): split the
arguments, discover the context, make the context path absolute, resolve
mount points, and append the auxiliary sources to the computed sources.
Alongside the result, the list of `config.MountPoints` invocations is
recorded.  An error at any step terminates the run before later steps. -/
def pushRunTrace (env : Env) (hidden isNoPrompt isRecursive mountedPush : Bool)
    (args : List String) :
    Except String (Context × Options) × List MountCall :=
  let split := pushSplit mountedPush args
  let contextArgs := split.1
  let rest := split.2.1
  let sources := split.2.2
  match discoverContext env contextArgs with
  | .error e => (.error e, [])
  | .ok (ctx, path) =>
    match env.absOf path with
    | .error e => (.error e, [])
    | .ok contextAbsPath =>
      let resolved := env.mountPoints path contextAbsPath rest hidden
      (.ok (ctx, { path := path, hidden := hidden, isNoPrompt := isNoPrompt,
                   isRecursive := isRecursive, mounts := resolved.1,
                   sources := sources ++ resolved.2 }),
       [⟨path, contextAbsPath, rest, hidden⟩])

/-- The pre-engine part of `pushCmd.Run`, result only. -/
def pushRun (env : Env) (hidden isNoPrompt isRecursive mountedPush : Bool)
    (args : List String) : Except String (Context × Options) :=
  (pushRunTrace env hidden isNoPrompt isRecursive mountedPush args).1

/-- All of `pushCmd.Run` (`main.go:94-123`): after pre-engine resolution
succeeds, hand the context and options to the synchronization engine
(`drive.New(context, options).Push()`, abstracted as `enginePush`).
Alongside the result, the list of engine invocations is recorded. -/
def pushRunFullTrace (env : Env)
    (enginePush : Context → Options → Except String Unit)
    (hidden isNoPrompt isRecursive mountedPush : Bool) (args : List String) :
    Except String Unit × List (Context × Options) :=
  match pushRun env hidden isNoPrompt isRecursive mountedPush args with
  | .error e => (.error e, [])
  | .ok (ctx, opts) => (enginePush ctx opts, [(ctx, opts)])

/-- All of `pushCmd.Run`, result only. -/
def pushRunFull (env : Env)
    (enginePush : Context → Options → Except String Unit)
    (hidden isNoPrompt isRecursive mountedPush : Bool) (args : List String) :
    Except String Unit :=
  (pushRunFullTrace env enginePush hidden isNoPrompt isRecursive mountedPush args).1

/-- `exitWithError` (`main.go:180-185`): a nil error lets the run
continue; a non-nil error prints its message with `fmt.Println` (to
standard output) and exits with status 1. -/
def exitWithError : Option String → Option (Nat × List String)
  | none => none
  | some e => some (1, [e])

/-- Outcome `(exitCode, stdoutLines)` of a full command run: every step
threads its error through `exitWithError`, so the first failing step
prints the message and exits 1; a run with no failing step reaches the
end of `main` and exits 0 having printed nothing. -/
def processOutcome (r : Except String Unit) : Nat × List String :=
  match r with
  | .ok _ => (0, [])
  | .error e => (exitWithError (some e)).getD (0, [])

/- Concrete environments used to witness the theorems below. -/

/-- An environment in which every collaborator succeeds. -/
def envOk : Env where
  cwd := "/work"
  discover := fun _ => .ok ⟨"/root"⟩
  relOf := fun root p => .ok (root ++ ">" ++ p)
  absOf := fun p => .ok ("/abs" ++ p)
  mountPoints := fun _ _ rest _ => ([], rest.map fun r => "/mnt/" ++ r)

/-- An environment in which context discovery fails. -/
def envDiscErr : Env where
  cwd := "/work"
  discover := fun _ => .error "nocontext"
  relOf := fun root p => .ok (root ++ ">" ++ p)
  absOf := fun p => .ok ("/abs" ++ p)
  mountPoints := fun _ _ rest _ => ([], rest.map fun r => "/mnt/" ++ r)

/-- An environment in which relative-path computation fails. -/
def envRelErr : Env where
  cwd := "/work"
  discover := fun _ => .ok ⟨"/root"⟩
  relOf := fun _ _ => .error "relfail"
  absOf := fun p => .ok ("/abs" ++ p)
  mountPoints := fun _ _ rest _ => ([], rest.map fun r => "/mnt/" ++ r)

/-- An engine that always succeeds. -/
def engineOk : Context → Options → Except String Unit := fun _ _ => .ok ()

/-- C1: with the mounted-push flag false, the push source-set builder
makes every argument a context argument, leaves `rest` empty, and
synthesizes `sources` as `"/" ++ a` for each argument `a`, in the
original order. -/
theorem pushSplit_plain (args : List String) :
    pushSplit false args = (args, [], args.map fun a => "/" ++ a) := by
  simp [pushSplit]

/-- C2: with the mounted-push flag true and a non-empty argument list,
the push source-set builder takes the last argument as the (sole)
context argument, all preceding arguments as `rest` in order, and
starts with an empty source list. -/
theorem pushSplit_mounted (xs : List String) (x : String) :
    pushSplit true (xs ++ [x]) = ([x], xs, []) := by
  simp [pushSplit]

/-- C3: the two source-computation modes are mutually exclusive — the
mounted split never synthesizes plain sources and the plain split never
produces mount candidates — and which mode applies is determined solely
by the mounted-push flag together with the presence of at least one
argument. -/
theorem pushSplit_modes (m : Bool) (args : List String) :
    ((pushSplit m args).2.1 = [] ∨ (pushSplit m args).2.2 = []) ∧
    (m = true ∧ args ≠ [] → (pushSplit m args).2.2 = []) ∧
    (¬(m = true ∧ args ≠ []) →
      (pushSplit m args).2.1 = [] ∧
      (pushSplit m args).2.2 = args.map fun a => "/" ++ a) := by
  cases m <;> cases args <;> simp [pushSplit]

/-- Witness for C3 at a concrete mounted invocation. -/
theorem pushSplit_modes_witness : (pushSplit true ["a"]).2.2 = [] :=
  (pushSplit_modes true ["a"]).2.1 ⟨rfl, by decide⟩

/-- C4: with the mounted-push flag true and zero arguments, the split
falls through to the plain mode (no context argument, empty `rest`,
empty initial sources) and the whole push run — engine call included —
behaves exactly as with the flag false. -/
theorem pushRun_mounted_empty_args :
    pushSplit true [] = ([], [], []) ∧
    ∀ (env : Env) (engine : Context → Options → Except String Unit)
      (h np r : Bool),
      pushRunFullTrace env engine h np r true [] =
        pushRunFullTrace env engine h np r false [] := by
  refine ⟨by simp [pushSplit], fun env engine h np r => ?_⟩
  rfl

/-- C5 counterexample: with `args = [""]` (non-empty) and current
working directory `"/cwd"`, the resolver does not return `args[0]`: it
falls back to the working directory instead. -/
theorem getContextPath_nonempty_cex :
    getContextPath "/cwd" [""] = "/cwd" ∧ getContextPath "/cwd" [""] ≠ "" := by
  constructor <;> decide

/-- C5 (amended): the resolver returns `args[0]` when `args` is
non-empty and `args[0]` is not the empty string; it returns the current
working directory when `args` is empty or `args[0]` is the empty
string. -/
theorem getContextPath_spec (cwd : String) (args : List String) :
    getContextPath cwd args =
      match args with
      | [] => cwd
      | a :: _ => if a = "" then cwd else a := by
  cases args <;> simp [getContextPath]

/-- C10: the CWD fallback triggers whenever the selected path is the
empty string, not only when the argument list is empty: a non-empty
argument list whose first element is `""` also resolves to the current
working directory. -/
theorem getContextPath_empty_string_fallback (cwd : String) (rest : List String) :
    getContextPath cwd ("" :: rest) = cwd := by
  simp [getContextPath]

/-- C6: when context discovery succeeds, the returned relative path is
the result of `relOf context.absPath args[0]` when a positional argument
was supplied and the empty string when none was; and when the
relative-path computation fails after a successful discovery, that
failure is the terminal error of the resolver. -/
theorem discoverContext_relPath (env : Env) (args : List String) :
    (∀ (ctx : Context) (rel : String),
      discoverContext env args = .ok (ctx, rel) →
        match args with
        | [] => rel = ""
        | a :: _ => env.relOf ctx.absPath a = .ok rel) ∧
    (∀ (a : String) (as : List String) (ctx : Context) (e : String),
      args = a :: as →
      env.discover (getContextPath env.cwd args) = .ok ctx →
      env.relOf ctx.absPath a = .error e →
      discoverContext env args = .error e) := by
  constructor
  · intro ctx rel hok
    cases args with
    | nil =>
      cases hd : env.discover (getContextPath env.cwd ([] : List String)) with
      | error e => simp [discoverContext, hd] at hok
      | ok c =>
        simp [discoverContext, hd] at hok
        simp [hok.2]
    | cons a as =>
      cases hd : env.discover (getContextPath env.cwd (a :: as)) with
      | error e => simp [discoverContext, hd] at hok
      | ok c =>
        cases hr : env.relOf c.absPath a with
        | error e => simp [discoverContext, hd, hr] at hok
        | ok rel2 =>
          simp [discoverContext, hd, hr] at hok
          show env.relOf ctx.absPath a = Except.ok rel
          rw [← hok.1, ← hok.2]
          exact hr
  · intro a as ctx e hargs hd hr
    subst hargs
    simp only [discoverContext, hd, hr]

/-- Witness for C6: a successful resolution reports the relative path
computed by the collaborator, and a failing relative-path computation is
the terminal error. -/
theorem discoverContext_relPath_witness :
    envOk.relOf "/root" "p" = .ok "/root>p" ∧
    discoverContext envRelErr ["p"] = .error "relfail" :=
  ⟨(discoverContext_relPath envOk ["p"]).1 ⟨"/root"⟩ "/root>p" rfl,
   (discoverContext_relPath envRelErr ["p"]).2 "p" [] ⟨"/root"⟩ "relfail" rfl rfl rfl⟩

/-- C7: on a push run whose resolution succeeds, `config.MountPoints` is
invoked exactly once, with the `rest` of the argument split (hence empty
rest in the non-mounted mode) and the hidden flag; the auxiliary sources
it returns are appended after the already-computed sources, both orders
preserved. -/
theorem push_mounts_once (env : Env) (h np r m : Bool) (args : List String)
    (ctx : Context) (opts : Options)
    (hok : pushRun env h np r m args = .ok (ctx, opts)) :
    ∃ c : MountCall,
      (pushRunTrace env h np r m args).2 = [c] ∧
      c.rest = (pushSplit m args).2.1 ∧
      c.hiddenFlag = h ∧
      opts.sources =
        (pushSplit m args).2.2 ++ (env.mountPoints c.path c.absPath c.rest c.hiddenFlag).2 ∧
      (m = false → c.rest = []) := by
  simp only [pushRun, pushRunTrace] at hok ⊢
  cases hd : discoverContext env (pushSplit m args).1 with
  | error e => simp [hd] at hok
  | ok cp =>
    obtain ⟨c0, path⟩ := cp
    simp only [hd] at hok ⊢
    cases ha : env.absOf path with
    | error e => simp [ha] at hok
    | ok absP =>
      simp only [ha] at hok ⊢
      simp at hok
      obtain ⟨hctx, hopts⟩ := hok
      refine ⟨⟨path, absP, (pushSplit m args).2.1, h⟩, rfl, rfl, rfl, ?_, ?_⟩
      · rw [← hopts]
      · intro hm
        subst hm
        rw [pushSplit_plain args]

/-- Witness for C7 at a concrete successful non-mounted push. -/
theorem push_mounts_once_witness :
    ∃ c : MountCall,
      (pushRunTrace envOk false false false false ["a"]).2 = [c] ∧
      c.rest = (pushSplit false ["a"]).2.1 ∧
      c.hiddenFlag = false ∧
      (⟨"/root>a", false, false, false, [], ["/a"]⟩ : Options).sources =
        (pushSplit false ["a"]).2.2 ++
          (envOk.mountPoints c.path c.absPath c.rest c.hiddenFlag).2 ∧
      (false = false → c.rest = []) :=
  push_mounts_once envOk false false false false ["a"] ⟨"/root"⟩
    ⟨"/root>a", false, false, false, [], ["/a"]⟩ rfl

/-- C8: for every push invocation, a successful run exits with status 0
printing nothing, and a failing run prints the error message to standard
output and exits with status 1. -/
theorem push_exit_codes (env : Env)
    (engine : Context → Options → Except String Unit)
    (h np r m : Bool) (args : List String) :
    (pushRunFull env engine h np r m args = .ok () →
      processOutcome (pushRunFull env engine h np r m args) = (0, [])) ∧
    (∀ e : String, pushRunFull env engine h np r m args = .error e →
      processOutcome (pushRunFull env engine h np r m args) = (1, [e])) := by
  constructor
  · intro hok; rw [hok]; rfl
  · intro e herr; rw [herr]; rfl

/-- Witness for C8: a fully successful push exits 0 with no output, and
a push whose discovery fails exits 1 printing that error. -/
theorem push_exit_codes_witness :
    processOutcome (pushRunFull envOk engineOk false false false false ["a"]) = (0, []) ∧
    processOutcome (pushRunFull envDiscErr engineOk false false false false ["a"]) =
      (1, ["nocontext"]) :=
  ⟨(push_exit_codes envOk engineOk false false false false ["a"]).1 rfl,
   (push_exit_codes envDiscErr engineOk false false false false ["a"]).2 "nocontext" rfl⟩

/-- C9: when any pre-engine resolution step of a push fails, the
synchronization engine is never invoked — the engine-call trace is empty
and the run terminates with that error, whatever the engine would have
done. -/
theorem push_engine_not_invoked (env : Env)
    (engine : Context → Options → Except String Unit)
    (h np r m : Bool) (args : List String) (e : String)
    (he : pushRun env h np r m args = .error e) :
    (pushRunFullTrace env engine h np r m args).2 = [] ∧
    pushRunFull env engine h np r m args = .error e := by
  unfold pushRunFull pushRunFullTrace
  rw [he]
  exact ⟨rfl, rfl⟩

/-- Witness for C9 at a concrete push whose context discovery fails. -/
theorem push_engine_not_invoked_witness :
    (pushRunFullTrace envDiscErr engineOk false false false false []).2 = [] ∧
    pushRunFull envDiscErr engineOk false false false false [] = .error "nocontext" :=
  push_engine_not_invoked envDiscErr engineOk false false false false [] "nocontext" rfl
